import Mathlib

/-!
Formal model of a multi-tenant message CRUD service with cache, search index
and event pipeline.  Pure data (messages, metadata maps, cache keys) is
embedded directly; the MongoDB collection, the Redis cache and the
Elasticsearch index are embedded as explicit list-shaped states, and the
fallible external calls (cache get/set/del, Kafka publish, index operations)
are driven by boolean failure flags in an environment record, with try/catch
blocks embedded as conditional effect traces.
-/

set_option linter.unusedVariables false

namespace MsgSys

/-- JSON-style values carried in a message's open metadata map
(TypeScript Record of string to any). -/
inductive JsonValue where
  | num (n : Int)
  | str (s : String)
  | bool (b : Bool)
  deriving DecidableEq, Repr

/-- An open key/value map in insertion order, as a TypeScript object. -/
abbrev Metadata := List (String × JsonValue)

/-- First-match lookup: the observable semantics of property access on a
TypeScript object (keys of a literal object are unique, so first match
is the only match). -/
def metaLookup (m : Metadata) (k : String) : Option JsonValue :=
  match m with
  | [] => none
  | (k', v) :: rest => if k' = k then some v else metaLookup rest k

/-- TypeScript object spread of M then N: M's keys in their order with N's
value where N overrides, followed by N's keys that are not in M. -/
def spreadMerge (M N : Metadata) : Metadata :=
  M.map (fun p => (p.1, (metaLookup N p.1).getD p.2)) ++
    N.filter (fun p => (metaLookup M p.1).isNone)

/-- Message entity (message.entity.ts).  The Date timestamp is embedded
as a Nat (milliseconds since epoch). -/
structure Message where
  id : String
  conversationId : String
  senderId : String
  content : String
  tenantId : String
  timestamp : Nat
  metadata : Option Metadata
  deriving DecidableEq, Repr

namespace Message

/-- Message.create: the given properties plus a freshly read clock value. -/
def create (id conversationId senderId content tenantId : String)
    (metadata : Option Metadata) (now : Nat) : Message :=
  { id := id, conversationId := conversationId, senderId := senderId,
    content := content, tenantId := tenantId, timestamp := now,
    metadata := metadata }

/-- updateContent replaces the content field. -/
def updateContent (m : Message) (content : String) : Message :=
  { m with content := content }

/-- updateMetadata spreads the current metadata then the update map;
spreading an undefined metadata contributes nothing. -/
def updateMetadata (m : Message) (metadata : Metadata) : Message :=
  { m with metadata := some (spreadMerge (m.metadata.getD []) metadata) }

end Message

/-! The MongoDB repository (mongodb-message.repository.ts).  The collection
is a list of documents in insertion order; findOne / updateOne / deleteOne
act on the first document matching the filter. -/

abbrev Store := List Message

/-- The filter object passed by every repository operation. -/
def matchesIdTenant (id tenantId : String) (m : Message) : Bool :=
  m.id == id && m.tenantId == tenantId

/-- MessageRepository.save: insert the new document. -/
def mongoSave (st : Store) (m : Message) : Store := st ++ [m]

/-- MessageRepository.findById: findOne on id and tenantId. -/
def mongoFindById (st : Store) (id tenantId : String) : Option Message :=
  st.find? (matchesIdTenant id tenantId)

/-- MessageRepository.update: updateOne on id and tenantId with the full
document; replaces the first matching document, no-op when none matches. -/
def mongoUpdate (st : Store) (m : Message) : Store :=
  match st with
  | [] => []
  | d :: rest =>
    if matchesIdTenant m.id m.tenantId d then m :: rest
    else d :: mongoUpdate rest m

/-- MessageRepository.delete: deleteOne on id and tenantId; removes the
first matching document, no-op when none matches. -/
def mongoDelete (st : Store) (id tenantId : String) : Store :=
  match st with
  | [] => []
  | d :: rest =>
    if matchesIdTenant id tenantId d then rest
    else d :: mongoDelete rest id tenantId

/-- The sortDirection union type of PaginationDto. -/
inductive SortDirection where
  | asc
  | desc
  deriving DecidableEq, Repr

/-- The sort option object passed to findByConversationId. -/
structure SortSpec where
  field : String
  direction : SortDirection
  deriving DecidableEq, Repr

/-- Stable insertion of one element into a sorted list. -/
def insertLe {α : Type} (le : α → α → Bool) (x : α) : List α → List α
  | [] => [x]
  | y :: ys => if le x y then x :: y :: ys else y :: insertLe le x ys

/-- Stable sort by a boolean comparator, modelling the store's sort stage. -/
def sortByLe {α : Type} (le : α → α → Bool) : List α → List α
  | [] => []
  | x :: xs => insertLe le x (sortByLe le xs)

/-- Sort-key comparison over the known schema fields; an unknown field name
leaves the order unchanged. -/
def fieldLe (f : String) (a b : Message) : Bool :=
  match f with
  | "id" => decide (a.id ≤ b.id)
  | "conversationId" => decide (a.conversationId ≤ b.conversationId)
  | "senderId" => decide (a.senderId ≤ b.senderId)
  | "content" => decide (a.content ≤ b.content)
  | "tenantId" => decide (a.tenantId ≤ b.tenantId)
  | "timestamp" => decide (a.timestamp ≤ b.timestamp)
  | _ => true

/-- The sort options built by findByConversationId: a custom field and
direction when options.sort is present with a truthy (non-empty) field,
otherwise timestamp descending (newest first). -/
def mongoSortLe (sort : Option SortSpec) (a b : Message) : Bool :=
  match sort with
  | some s =>
    if s.field = "" then decide (b.timestamp ≤ a.timestamp)
    else
      match s.direction with
      | .asc => fieldLe s.field a b
      | .desc => fieldLe s.field b a
  | none => decide (b.timestamp ≤ a.timestamp)

/-- MessageRepository.findByConversationId: page and limit clamped to at
least 1, skip = (page-1)*limit, filter by conversationId and tenantId,
sort, then skip/limit; total is the count of all matching documents. -/
def mongoFindByConversationId (st : Store) (conversationId tenantId : String)
    (page limit : Int) (sort : Option SortSpec) : List Message × Nat :=
  let page1 := max 1 page
  let limit1 := max 1 limit
  let skip := ((page1 - 1) * limit1).toNat
  let filtered := st.filter
    (fun m => m.conversationId == conversationId && m.tenantId == tenantId)
  let sorted := sortByLe (mongoSortLe sort) filtered
  ((sorted.drop skip).take limit1.toNat, filtered.length)

/-! The Elasticsearch service (elasticsearch.service.ts). -/

/-- The pagination envelope of PaginatedResponseDto. -/
structure Pagination where
  page : Int
  limit : Int
  totalItems : Nat
  totalPages : Nat
  deriving DecidableEq, Repr

structure PaginatedMessages where
  data : List Message
  pagination : Pagination
  deriving DecidableEq, Repr

/-- The search request as sent to the engine: the two exact term filters,
the fuzzy multi-match term, and the from/size window. -/
structure EsSearchRequest where
  conversationId : String
  tenantId : String
  term : String
  fromOffset : Int
  size : Int
  deriving DecidableEq, Repr

/-- ElasticSearchService.searchMessages.  The index is a list of documents;
the bool/must query is exact equality on the conversationId and tenantId
keyword fields plus the engine's fuzzy content match, which is abstracted
as the mtch argument.  Results are sorted by timestamp descending and
windowed by from = (page-1)*limit and size = limit; totalItems is the
engine's exact hit total, and totalPages embeds Math.ceil(totalItems/limit)
(the Nat ceiling division, equal to the float ceiling whenever limit ≥ 1;
the service is only ever called with limit ≥ 1). -/
def esSearch (index : List Message) (conversationId tenantId searchTerm : String)
    (page limit : Int) (mtch : String → String → Bool) :
    PaginatedMessages × EsSearchRequest :=
  let fromOffset := (page - 1) * limit
  let matched := index.filter
    (fun m => m.conversationId == conversationId && m.tenantId == tenantId &&
      mtch searchTerm m.content)
  let sorted := sortByLe (fun a b => decide (b.timestamp ≤ a.timestamp)) matched
  let hits := (sorted.drop fromOffset.toNat).take limit.toNat
  let totalItems := matched.length
  let totalPages := (totalItems + limit.toNat - 1) / limit.toNat
  (⟨hits, ⟨page, limit, totalItems, totalPages⟩⟩,
   ⟨conversationId, tenantId, searchTerm, fromOffset, limit⟩)

/-! The cache layer: NestJS cache-manager over Redis, embedded as an
association list from string keys to cached values, with the trace of
successful cache operations recorded for the invalidation claims. -/

inductive CacheValue where
  | msg (m : Message)
  | convPage (messages : List Message) (total : Nat)
  | searchPage (r : PaginatedMessages)
  deriving DecidableEq, Repr

abbrev CacheState := List (String × CacheValue)

inductive CacheOp where
  | get (key : String)
  | set (key : String)
  | del (key : String)
  deriving DecidableEq, Repr

/-- The key a cache operation acts on. -/
def CacheOp.key : CacheOp → String
  | .get k => k
  | .set k => k
  | .del k => k

def cacheSet (c : CacheState) (k : String) (v : CacheValue) : CacheState :=
  (k, v) :: c.filter (fun p => p.1 != k)

def cacheDel (c : CacheState) (k : String) : CacheState :=
  c.filter (fun p => p.1 != k)

def cacheGet (c : CacheState) (k : String) : Option CacheValue :=
  (c.find? (fun p => p.1 == k)).map (fun p => p.2)

/-! Cache keys (message-application.service.ts and
search-application.service.ts). -/

/-- JavaScript s || dflt on an optional string: undefined and the empty
string are both falsy. -/
def jsStringOr (s : Option String) (dflt : String) : String :=
  match s with
  | some v => if v = "" then dflt else v
  | none => dflt

/-- Rendering of the sortDirection || 'desc' template fragment. -/
def dirString (d : Option SortDirection) : String :=
  match d with
  | some .asc => "asc"
  | some .desc => "desc"
  | none => "desc"

/-- MessageApplicationService.getMessageCacheKey. -/
def getMessageCacheKey (id tenantId : String) : String :=
  "message:" ++ tenantId ++ ":" ++ id

/-- MessageApplicationService.getConversationMessagesCacheKey. -/
def getConversationMessagesCacheKey (conversationId tenantId : String)
    (page limit : Int) (sortField : Option String)
    (sortDirection : Option SortDirection) : String :=
  "conversation-messages:" ++ tenantId ++ ":" ++ conversationId ++ ":" ++
    toString page ++ ":" ++ toString limit ++ ":" ++
    jsStringOr sortField "timestamp" ++ ":" ++ dirString sortDirection

/-! Search-term normalization and the search cache key. -/

/-- JavaScript String.trim: strip whitespace from both ends. -/
def jsTrim (s : String) : String :=
  ⟨((s.data.dropWhile Char.isWhitespace).reverse.dropWhile
      Char.isWhitespace).reverse⟩

/-- JavaScript String.toLowerCase on the characters that occur here. -/
def jsToLowerCase (s : String) : String :=
  ⟨s.data.map Char.toLower⟩

mutual

/-- replace(whitespace-run regex, single space): each maximal run of
whitespace characters becomes one space.  collapseRuns emits the single
space at the start of a run; skipRun consumes the rest of the run. -/
def collapseRuns : List Char → List Char
  | [] => []
  | c :: rest =>
    if c.isWhitespace then ' ' :: skipRun rest
    else c :: collapseRuns rest

def skipRun : List Char → List Char
  | [] => []
  | c :: rest =>
    if c.isWhitespace then skipRun rest
    else c :: collapseRuns rest

end

/-- The trim / toLowerCase / collapse pipeline of getSearchCacheKey. -/
def normalizeSearchTerm (s : String) : String :=
  ⟨collapseRuns (jsToLowerCase (jsTrim s)).data⟩

/-- SearchApplicationService.getSearchCacheKey. -/
def getSearchCacheKey (conversationId tenantId searchTerm : String)
    (page limit : Int) : String :=
  "search:messages:" ++ tenantId ++ ":" ++ conversationId ++ ":" ++
    normalizeSearchTerm searchTerm ++ ":" ++ toString page ++ ":" ++
    toString limit

/-! Application services.  Each downstream collaborator that the service
wraps in try/catch is driven by a throw flag in the environment; a caught
exception leaves no successful operation in the trace and execution
continues, an uncaught one aborts the operation with an error result. -/

/-- Failure switches for the external collaborators of one call. -/
structure Env where
  repoThrows : Bool
  cacheGetThrows : Bool
  cacheSetThrows : Bool
  cacheDelThrows : Bool
  kafkaThrows : Bool
  esThrows : Bool
  deriving DecidableEq, Repr

structure CreateMessageDto where
  conversationId : String
  senderId : String
  content : String
  metadata : Option Metadata
  deriving DecidableEq, Repr

structure UpdateMessageDto where
  content : Option String
  metadata : Option Metadata
  deriving DecidableEq, Repr

/-- The lifecycle events handed to the Kafka producer. -/
inductive KafkaEvent where
  | created (m : Message)
  | updated (m : Message)
  | deleted (id conversationId tenantId : String)
  deriving DecidableEq, Repr

/-- Result and post-state of one write operation of
MessageApplicationService, with the traces of the successful cache
operations and published events. -/
structure WriteOutcome (α : Type) where
  result : Except String α
  store : Store
  cache : CacheState
  cacheOps : List CacheOp
  events : List KafkaEvent

/-- MessageApplicationService.createMessage: build the entity with a fresh
id and clock value, save it (hard failure), then cache the message and
delete the first-page/default-limit conversation key inside one try block
(soft failure), then publish message.created (soft failure). -/
def createMessage (env : Env) (st : Store) (cache : CacheState)
    (tenantId : String) (dto : CreateMessageDto) (newId : String) (now : Nat) :
    WriteOutcome Message :=
  let message := Message.create newId dto.conversationId dto.senderId
    dto.content tenantId dto.metadata now
  if env.repoThrows then
    ⟨.error "repository save failed", st, cache, [], []⟩
  else
    let st1 := mongoSave st message
    let messageCacheKey := getMessageCacheKey message.id tenantId
    let conversationCacheKey :=
      getConversationMessagesCacheKey message.conversationId tenantId 1 10
        none none
    let cacheStep : CacheState × List CacheOp :=
      if env.cacheSetThrows then (cache, [])
      else if env.cacheDelThrows then
        (cacheSet cache messageCacheKey (.msg message),
         [CacheOp.set messageCacheKey])
      else
        (cacheDel (cacheSet cache messageCacheKey (.msg message))
           conversationCacheKey,
         [CacheOp.set messageCacheKey, CacheOp.del conversationCacheKey])
    let events := if env.kafkaThrows then [] else [KafkaEvent.created message]
    ⟨.ok message, st1, cacheStep.1, cacheStep.2, events⟩

/-- JavaScript truthiness of an optional string: undefined and the empty
string are falsy. -/
def jsTruthyString (s : Option String) : Bool :=
  s.getD "" != ""

/-- The property-update block of updateMessage: updateContent when the DTO
content is truthy, then updateMetadata when a metadata object is present. -/
def applyMessageUpdate (m : Message) (dto : UpdateMessageDto) : Message :=
  let m1 :=
    if jsTruthyString dto.content then m.updateContent (dto.content.getD "")
    else m
  match dto.metadata with
  | some md => m1.updateMetadata md
  | none => m1

/-- MessageApplicationService.updateMessage: findById (hard failure, null
when absent), apply the property updates, repository update (hard
failure), then invalidateMessageCache (which swallows its own cache
errors) and re-cache the updated message inside the outer try block (soft
failure), then publish message.updated (soft failure). -/
def updateMessage (env : Env) (st : Store) (cache : CacheState)
    (tenantId id : String) (dto : UpdateMessageDto) :
    WriteOutcome (Option Message) :=
  if env.repoThrows then
    ⟨.error "repository findById failed", st, cache, [], []⟩
  else
    match mongoFindById st id tenantId with
    | none => ⟨.ok none, st, cache, [], []⟩
    | some existingMessage =>
      let updatedMessage := applyMessageUpdate existingMessage dto
      let st1 := mongoUpdate st updatedMessage
      let messageCacheKey := getMessageCacheKey id tenantId
      let conversationCacheKey :=
        getConversationMessagesCacheKey updatedMessage.conversationId tenantId
          1 10 none none
      let invalidateStep : CacheState × List CacheOp :=
        if env.cacheDelThrows then (cache, [])
        else
          (cacheDel (cacheDel cache messageCacheKey) conversationCacheKey,
           [CacheOp.del messageCacheKey, CacheOp.del conversationCacheKey])
      let setStep : CacheState × List CacheOp :=
        if env.cacheSetThrows then invalidateStep
        else
          (cacheSet invalidateStep.1 messageCacheKey (.msg updatedMessage),
           invalidateStep.2 ++ [CacheOp.set messageCacheKey])
      let events :=
        if env.kafkaThrows then [] else [KafkaEvent.updated updatedMessage]
      ⟨.ok (some updatedMessage), st1, setStep.1, setStep.2, events⟩

/-- MessageApplicationService.deleteMessage: findById (hard failure, false
when absent), repository delete (hard failure), then
invalidateMessageCache (soft failure), then publish message.deleted
(soft failure); returns true. -/
def deleteMessage (env : Env) (st : Store) (cache : CacheState)
    (tenantId id : String) : WriteOutcome Bool :=
  if env.repoThrows then
    ⟨.error "repository findById failed", st, cache, [], []⟩
  else
    match mongoFindById st id tenantId with
    | none => ⟨.ok false, st, cache, [], []⟩
    | some existingMessage =>
      let conversationId := existingMessage.conversationId
      let st1 := mongoDelete st id tenantId
      let messageCacheKey := getMessageCacheKey id tenantId
      let conversationCacheKey :=
        getConversationMessagesCacheKey conversationId tenantId 1 10 none none
      let invalidateStep : CacheState × List CacheOp :=
        if env.cacheDelThrows then (cache, [])
        else
          (cacheDel (cacheDel cache messageCacheKey) conversationCacheKey,
           [CacheOp.del messageCacheKey, CacheOp.del conversationCacheKey])
      let events :=
        if env.kafkaThrows then []
        else [KafkaEvent.deleted id conversationId tenantId]
      ⟨.ok true, st1, invalidateStep.1, invalidateStep.2, events⟩

/-- One findByConversationId call as issued to the repository. -/
structure ConvQuery where
  conversationId : String
  tenantId : String
  page : Int
  limit : Int
  sort : Option SortSpec
  deriving DecidableEq, Repr

/-- Result and post-state of one read through the conversation-page path,
with the cache operations and repository calls that were issued. -/
structure ReadOutcome (α : Type) where
  result : Except String α
  cache : CacheState
  cacheOps : List CacheOp
  repoCalls : List ConvQuery

/-- MessageApplicationService.getMessagesByConversation: coerce page and
limit to the defaults when below 1, try the cache (a cache read error
falls through to the repository), on miss query the repository (hard
failure) and populate the cache (soft failure). -/
def getMessagesByConversation (env : Env) (st : Store) (cache : CacheState)
    (tenantId conversationId : String) (page limit : Int)
    (sort : Option SortSpec) : ReadOutcome (List Message × Nat) :=
  let page1 := if page < 1 then 1 else page
  let limit1 := if limit < 1 then 10 else limit
  let cacheKey := getConversationMessagesCacheKey conversationId tenantId
    page1 limit1 (sort.map (fun s => s.field))
    (sort.map (fun s => s.direction))
  let getOps := if env.cacheGetThrows then [] else [CacheOp.get cacheKey]
  let hit : Option (List Message × Nat) :=
    if env.cacheGetThrows then none
    else
      match cacheGet cache cacheKey with
      | some (.convPage msgs total) => some (msgs, total)
      | _ => none
  match hit with
  | some r => ⟨.ok r, cache, getOps, []⟩
  | none =>
    let call : ConvQuery := ⟨conversationId, tenantId, page1, limit1, sort⟩
    if env.repoThrows then
      ⟨.error "repository query failed", cache, getOps, [call]⟩
    else
      let r := mongoFindByConversationId st conversationId tenantId page1
        limit1 sort
      let setStep : CacheState × List CacheOp :=
        if env.cacheSetThrows then (cache, [])
        else (cacheSet cache cacheKey (.convPage r.1 r.2), [CacheOp.set cacheKey])
      ⟨.ok r, setStep.1, getOps ++ setStep.2, [call]⟩

/-- One searchMessages call as issued to the Elasticsearch service. -/
structure SearchCall where
  conversationId : String
  tenantId : String
  term : String
  page : Int
  limit : Int
  deriving DecidableEq, Repr

structure SearchOutcome where
  result : Except String PaginatedMessages
  cache : CacheState
  cacheOps : List CacheOp
  esCalls : List SearchCall

/-- SearchApplicationService.searchMessages: coerce page and limit to the
defaults when below 1, try the cache (a cache read error falls through),
on miss run the Elasticsearch query (hard failure: the search service
rethrows) and cache the result page (soft failure). -/
def searchMessagesApp (env : Env) (index : List Message) (cache : CacheState)
    (tenantId conversationId searchTerm : String) (page limit : Int)
    (mtch : String → String → Bool) : SearchOutcome :=
  let page1 := if page < 1 then 1 else page
  let limit1 := if limit < 1 then 10 else limit
  let cacheKey := getSearchCacheKey conversationId tenantId searchTerm page1
    limit1
  let getOps := if env.cacheGetThrows then [] else [CacheOp.get cacheKey]
  let hit : Option PaginatedMessages :=
    if env.cacheGetThrows then none
    else
      match cacheGet cache cacheKey with
      | some (.searchPage r) => some r
      | _ => none
  match hit with
  | some r => ⟨.ok r, cache, getOps, []⟩
  | none =>
    let call : SearchCall := ⟨conversationId, tenantId, searchTerm, page1, limit1⟩
    if env.esThrows then
      ⟨.error "Message search failed", cache, getOps, [call]⟩
    else
      let r := (esSearch index conversationId tenantId searchTerm page1 limit1
        mtch).1
      let setStep : CacheState × List CacheOp :=
        if env.cacheSetThrows then (cache, [])
        else (cacheSet cache cacheKey (.searchPage r), [CacheOp.set cacheKey])
      ⟨.ok r, setStep.1, getOps ++ setStep.2, [call]⟩

/-! The Kafka consumer (message.consumer.ts). -/

/-- One Kafka record as delivered to handleMessage; the value is the raw
payload string when present. -/
structure KafkaRecord where
  key : Option String
  value : Option String
  correlationId : Option String
  deriving DecidableEq, Repr

/-- The event envelope as read back from JSON: the type tag is an arbitrary
string at this point, and the payload is the message document. -/
structure MessageEvent where
  type : String
  payload : Message
  deriving DecidableEq, Repr

/-- The Elasticsearch mutations the consumer can issue. -/
inductive EsOp where
  | index (doc : Message)
  | update (id : String) (doc : Message)
  | del (id : String)
  deriving DecidableEq, Repr

structure ConsumeOutcome where
  result : Except String Unit
  esOps : List EsOp

/-- MessageConsumerService.handleMessage: a record with an empty value is
logged and dropped; otherwise the payload is parsed (JSON.parse is
abstracted as the parse argument, none standing for a parse exception)
and dispatched by event type to the index; an unknown type is logged and
skipped, and the whole body is wrapped in try/catch, so parse errors and
index failures are logged, never rethrown. -/
def handleMessage (env : Env) (parse : String → Option MessageEvent)
    (record : KafkaRecord) : ConsumeOutcome :=
  match record.value with
  | none => ⟨.ok (), []⟩
  | some v =>
    let body : Except String (List EsOp) :=
      match parse v with
      | none => .error "JSON parse failed"
      | some event =>
        if event.type = "message.created" then
          if env.esThrows then .error "Message indexing failed"
          else .ok [EsOp.index event.payload]
        else if event.type = "message.updated" then
          if env.esThrows then .error "Message update failed"
          else .ok [EsOp.update event.payload.id event.payload]
        else if event.type = "message.deleted" then
          if env.esThrows then .error "Message deletion failed"
          else .ok [EsOp.del event.payload.id]
        else .ok []
    match body with
    | .ok ops => ⟨.ok (), ops⟩
    | .error _ => ⟨.ok (), []⟩

/-! Concrete values used in counterexamples and witnesses. -/

/-- A message of tenant T1; its id is shared with exMsg2 below. -/
def exMsg1 : Message :=
  ⟨"x", "c1", "s1", "hello world", "T1", 5, some [("a", .num 1)]⟩

/-- A message of tenant T2 with the same id and conversation as exMsg1. -/
def exMsg2 : Message :=
  ⟨"x", "c1", "s2", "other", "T2", 6, none⟩

def exStore : Store := [exMsg1, exMsg2]

/-- A healthy repository with every soft collaborator throwing. -/
def softEnv : Env := ⟨false, true, true, true, true, true⟩

/-- A fully healthy environment. -/
def okEnv : Env := ⟨false, false, false, false, false, false⟩

def exCreateDto : CreateMessageDto := ⟨"c1", "s1", "hi", none⟩

def exUpdateDto : UpdateMessageDto := ⟨some "new text", some [("b", .num 2)]⟩

end MsgSys

namespace MsgSys

/-! Helper lemmas. -/

theorem string_data_append (s t : String) : (s ++ t).data = s.data ++ t.data :=
  rfl

theorem mem_insertLe {α : Type} (le : α → α → Bool) (x y : α) (l : List α) :
    y ∈ insertLe le x l ↔ y = x ∨ y ∈ l := by
  induction l with
  | nil => simp [insertLe]
  | cons z zs ih =>
    simp only [insertLe]
    by_cases h : le x z = true
    · simp [h]
    · rw [if_neg h]
      simp only [List.mem_cons, ih]
      tauto

theorem mem_sortByLe {α : Type} (le : α → α → Bool) (y : α) (l : List α) :
    y ∈ sortByLe le l ↔ y ∈ l := by
  induction l with
  | nil => simp [sortByLe]
  | cons z zs ih => simp [sortByLe, mem_insertLe, ih]

theorem metaLookup_append (a b : Metadata) (k : String) :
    metaLookup (a ++ b) k =
      Option.orElse (metaLookup a k) (fun _ => metaLookup b k) := by
  induction a with
  | nil => simp [metaLookup, Option.orElse]
  | cons p rest ih =>
    by_cases h : p.1 = k
    · simp [metaLookup, h, Option.orElse]
    · simp [metaLookup, h, ih]

theorem metaLookup_mapMerge (M N : Metadata) (k : String) :
    metaLookup (M.map (fun p => (p.1, (metaLookup N p.1).getD p.2))) k =
      (metaLookup M k).map (fun v => (metaLookup N k).getD v) := by
  induction M with
  | nil => simp [metaLookup]
  | cons p rest ih =>
    obtain ⟨k0, v0⟩ := p
    by_cases h : k0 = k
    · subst h
      simp [metaLookup]
    · simp [metaLookup, h, ih]

theorem metaLookup_filterMerge (M N : Metadata) (k : String) :
    metaLookup (N.filter (fun p => (metaLookup M p.1).isNone)) k =
      if (metaLookup M k).isNone then metaLookup N k else none := by
  induction N with
  | nil => simp [metaLookup]
  | cons p rest ih =>
    obtain ⟨k0, v0⟩ := p
    by_cases h : k0 = k
    · subst h
      cases hq : (metaLookup M k0).isNone
      · simp [metaLookup, hq, ih]
      · simp [metaLookup, hq]
    · cases hq : (metaLookup M k0).isNone <;> simp [metaLookup, h, hq, ih]

theorem metaLookup_spreadMerge (M N : Metadata) (k : String) :
    metaLookup (spreadMerge M N) k =
      Option.orElse (metaLookup N k) (fun _ => metaLookup M k) := by
  rw [spreadMerge, metaLookup_append, metaLookup_mapMerge,
    metaLookup_filterMerge]
  cases hM : metaLookup M k <;> cases hN : metaLookup N k <;>
    simp [Option.orElse, hM, hN]

/-- C5: updateMetadata performs a shallow merge: for every message with
existing metadata M and every update map N, the resulting metadata maps
each key to N's value if the key is in N, otherwise to M's value; in
particular updating a message holding a:1 with b:2 yields a:1, b:2, and
keys present in both take the new value (the orElse shape of the lookup). -/
theorem C5_updateMetadata_shallow_merge :
    (∀ (m : Message) (M N : Metadata) (k : String), m.metadata = some M →
      ∃ R, (m.updateMetadata N).metadata = some R ∧
        metaLookup R k =
          Option.orElse (metaLookup N k) (fun _ => metaLookup M k)) ∧
    ∀ (m : Message), m.metadata = some [("a", JsonValue.num 1)] →
      (m.updateMetadata [("b", JsonValue.num 2)]).metadata =
        some [("a", JsonValue.num 1), ("b", JsonValue.num 2)] := by
  constructor
  · intro m M N k hm
    refine ⟨spreadMerge M N, ?_, metaLookup_spreadMerge M N k⟩
    simp [Message.updateMetadata, hm]
  · intro m hm
    simp only [Message.updateMetadata, hm, Option.getD_some]
    decide

/-- Witness for C5 at the concrete message exMsg1 holding a:1, updated
with b:2 and looked up at the key b. -/
theorem C5_witness :
    exMsg1.metadata = some [("a", JsonValue.num 1)] ∧
    (∃ R, (exMsg1.updateMetadata [("b", JsonValue.num 2)]).metadata = some R ∧
      metaLookup R "b" =
        Option.orElse (metaLookup [("b", JsonValue.num 2)] "b")
          (fun _ => metaLookup [("a", JsonValue.num 1)] "b")) ∧
    (exMsg1.updateMetadata [("b", JsonValue.num 2)]).metadata =
      some [("a", JsonValue.num 1), ("b", JsonValue.num 2)] :=
  ⟨rfl, C5_updateMetadata_shallow_merge.1 exMsg1 _ _ "b" rfl,
   C5_updateMetadata_shallow_merge.2 exMsg1 rfl⟩

/-- C7: the search cache key maps any two search terms with the same
normalization (trim, lowercase, collapse whitespace runs to one space) to
the identical key; in particular the two example terms produce the same
key for the same tenant, conversation, page and limit. -/
theorem C7_search_cache_key_normalization :
    (∀ (t1 t2 conversationId tenantId : String) (page limit : Int),
      normalizeSearchTerm t1 = normalizeSearchTerm t2 →
      getSearchCacheKey conversationId tenantId t1 page limit =
        getSearchCacheKey conversationId tenantId t2 page limit) ∧
    ∀ (conversationId tenantId : String) (page limit : Int),
      getSearchCacheKey conversationId tenantId "  Test   QUERY  " page limit =
        getSearchCacheKey conversationId tenantId "test query" page limit := by
  constructor
  · intro t1 t2 c t p l h
    simp [getSearchCacheKey, h]
  · intro c t p l
    have h : normalizeSearchTerm "  Test   QUERY  " =
        normalizeSearchTerm "test query" := by decide
    simp [getSearchCacheKey, h]

/-- Witness for C7 at the two example terms with concrete tenant,
conversation, page and limit. -/
theorem C7_witness :
    normalizeSearchTerm "  Test   QUERY  " = normalizeSearchTerm "test query" ∧
    getSearchCacheKey "c1" "T1" "  Test   QUERY  " 1 10 =
      getSearchCacheKey "c1" "T1" "test query" 1 10 :=
  ⟨by decide,
   C7_search_cache_key_normalization.1 "  Test   QUERY  " "test query" "c1"
     "T1" 1 10 (by decide)⟩

theorem applyMessageUpdate_fields (m : Message) (dto : UpdateMessageDto) :
    (applyMessageUpdate m dto).id = m.id ∧
    (applyMessageUpdate m dto).conversationId = m.conversationId ∧
    (applyMessageUpdate m dto).senderId = m.senderId ∧
    (applyMessageUpdate m dto).tenantId = m.tenantId ∧
    (applyMessageUpdate m dto).timestamp = m.timestamp := by
  simp only [applyMessageUpdate]
  cases hm : dto.metadata <;> cases h : jsTruthyString dto.content <;>
    simp [h, Message.updateContent, Message.updateMetadata]

theorem findById_matches (st : Store) (id t : String) (m : Message)
    (h : mongoFindById st id t = some m) : m.id = id ∧ m.tenantId = t := by
  have hp := List.find?_some h
  simpa [matchesIdTenant] using hp

theorem findById_mongoUpdate (st : Store) (id t : String) (m0 m' : Message)
    (h : mongoFindById st id t = some m0) (hid : m'.id = id)
    (ht : m'.tenantId = t) :
    mongoFindById (mongoUpdate st m') id t = some m' := by
  have hm' : matchesIdTenant id t m' = true := by
    simp [matchesIdTenant, hid, ht]
  induction st with
  | nil => simp [mongoFindById] at h
  | cons d rest ih =>
    by_cases hd : matchesIdTenant id t d = true
    · have hd2 : matchesIdTenant m'.id m'.tenantId d = true := by
        rw [hid, ht]
        exact hd
      rw [mongoUpdate, if_pos hd2, mongoFindById,
        List.find?_cons_of_pos _ hm']
    · have hd2 : ¬ matchesIdTenant m'.id m'.tenantId d = true := by
        rw [hid, ht]
        exact hd
      rw [mongoUpdate, if_neg hd2, mongoFindById,
        List.find?_cons_of_neg _ hd]
      rw [mongoFindById, List.find?_cons_of_neg _ hd] at h
      exact ih h

/-- C1: with a healthy repository, an exception thrown by any subsequent
cache set/delete or by the Kafka publication (all the soft flags of the
environment are arbitrary here) is caught, and createMessage still
returns the created message, updateMessage the updated message, and
deleteMessage true. -/
theorem C1_soft_failures_return_success (env : Env) (st : Store)
    (cache : CacheState) (tenantId id newId : String) (now : Nat)
    (cdto : CreateMessageDto) (udto : UpdateMessageDto) (m0 : Message)
    (hrepo : env.repoThrows = false) :
    (createMessage env st cache tenantId cdto newId now).result =
      .ok (Message.create newId cdto.conversationId cdto.senderId cdto.content
        tenantId cdto.metadata now) ∧
    (mongoFindById st id tenantId = some m0 →
      (updateMessage env st cache tenantId id udto).result =
        .ok (some (applyMessageUpdate m0 udto))) ∧
    (mongoFindById st id tenantId = some m0 →
      (deleteMessage env st cache tenantId id).result = .ok true) := by
  refine ⟨?_, ?_, ?_⟩
  · simp [createMessage, hrepo]
  · intro hfind
    simp [updateMessage, hrepo, hfind]
  · intro hfind
    simp [deleteMessage, hrepo, hfind]

/-- Witness for C1: the environment softEnv has every cache operation and
the Kafka producer throwing, yet all three writes report success. -/
theorem C1_witness :
    (createMessage softEnv exStore [] "T1" exCreateDto "n1" 7).result =
      .ok (Message.create "n1" "c1" "s1" "hi" "T1" none 7) ∧
    (updateMessage softEnv exStore [] "T1" "x" exUpdateDto).result =
      .ok (some (applyMessageUpdate exMsg1 exUpdateDto)) ∧
    (deleteMessage softEnv exStore [] "T1" "x").result = .ok true := by
  have h := C1_soft_failures_return_success softEnv exStore [] "T1" "x" "n1" 7
    exCreateDto exUpdateDto exMsg1 rfl
  exact ⟨h.1, h.2.1 (by decide), h.2.2 (by decide)⟩

/-- C4: every successful updateMessage returns, and persists in the store,
a message that agrees with the pre-state stored message on id,
conversationId, senderId, tenantId and timestamp; only content and
metadata are touched by the update. -/
theorem C4_update_preserves_identity (env : Env) (st : Store)
    (cache : CacheState) (tenantId id : String) (dto : UpdateMessageDto)
    (m0 : Message) (hrepo : env.repoThrows = false)
    (hfind : mongoFindById st id tenantId = some m0) :
    ∃ m', (updateMessage env st cache tenantId id dto).result =
        .ok (some m') ∧
      m'.id = m0.id ∧ m'.conversationId = m0.conversationId ∧
      m'.senderId = m0.senderId ∧ m'.tenantId = m0.tenantId ∧
      m'.timestamp = m0.timestamp ∧
      mongoFindById (updateMessage env st cache tenantId id dto).store
        id tenantId = some m' := by
  obtain ⟨hid0, ht0⟩ := findById_matches st id tenantId m0 hfind
  obtain ⟨h1, h2, h3, h4, h5⟩ := applyMessageUpdate_fields m0 dto
  refine ⟨applyMessageUpdate m0 dto, ?_, h1, h2, h3, h4, h5, ?_⟩
  · simp [updateMessage, hrepo, hfind]
  · have hst : (updateMessage env st cache tenantId id dto).store =
        mongoUpdate st (applyMessageUpdate m0 dto) := by
      simp [updateMessage, hrepo, hfind]
    rw [hst]
    exact findById_mongoUpdate st id tenantId m0 _ hfind
      (by rw [h1, hid0]) (by rw [h4, ht0])

/-- Witness for C4 at the concrete store and update DTO. -/
theorem C4_witness :
    ∃ m', (updateMessage softEnv exStore [] "T1" "x" exUpdateDto).result =
        .ok (some m') ∧
      m'.id = exMsg1.id ∧ m'.conversationId = exMsg1.conversationId ∧
      m'.senderId = exMsg1.senderId ∧ m'.tenantId = exMsg1.tenantId ∧
      m'.timestamp = exMsg1.timestamp ∧
      mongoFindById (updateMessage softEnv exStore [] "T1" "x"
        exUpdateDto).store "x" "T1" = some m' :=
  C4_update_preserves_identity softEnv exStore [] "T1" "x" exUpdateDto exMsg1
    rfl (by decide)

/-- C10: updateMessage called with content equal to the empty string skips
the content update (the truthiness check treats the empty string as
absent): the returned and persisted message keeps its prior content,
while a metadata update in the same request is still applied. -/
theorem C10_empty_content_update_skipped (env : Env) (st : Store)
    (cache : CacheState) (tenantId id : String) (md : Metadata)
    (m0 : Message) (hrepo : env.repoThrows = false)
    (hfind : mongoFindById st id tenantId = some m0) :
    ∃ m', (updateMessage env st cache tenantId id
        ⟨some "", some md⟩).result = .ok (some m') ∧
      m'.content = m0.content ∧
      m'.metadata = some (spreadMerge (m0.metadata.getD []) md) ∧
      mongoFindById (updateMessage env st cache tenantId id
        ⟨some "", some md⟩).store id tenantId = some m' := by
  obtain ⟨hid0, ht0⟩ := findById_matches st id tenantId m0 hfind
  have happ : applyMessageUpdate m0 ⟨some "", some md⟩ =
      m0.updateMetadata md := by
    simp [applyMessageUpdate, jsTruthyString]
  refine ⟨applyMessageUpdate m0 ⟨some "", some md⟩, ?_, ?_, ?_, ?_⟩
  · simp [updateMessage, hrepo, hfind]
  · rw [happ]
    simp [Message.updateMetadata]
  · rw [happ]
    simp [Message.updateMetadata]
  · have hst : (updateMessage env st cache tenantId id
        ⟨some "", some md⟩).store =
        mongoUpdate st (applyMessageUpdate m0 ⟨some "", some md⟩) := by
      simp [updateMessage, hrepo, hfind]
    rw [hst]
    obtain ⟨h1, h2, h3, h4, h5⟩ :=
      applyMessageUpdate_fields m0 ⟨some "", some md⟩
    exact findById_mongoUpdate st id tenantId m0 _ hfind
      (by rw [h1, hid0]) (by rw [h4, ht0])

/-- Witness for C10 at the concrete store: exMsg1's content survives an
update carrying empty content and the metadata map b:2. -/
theorem C10_witness :
    ∃ m', (updateMessage softEnv exStore [] "T1" "x"
        ⟨some "", some [("b", JsonValue.num 2)]⟩).result = .ok (some m') ∧
      m'.content = exMsg1.content ∧
      m'.metadata = some (spreadMerge (exMsg1.metadata.getD [])
        [("b", JsonValue.num 2)]) ∧
      mongoFindById (updateMessage softEnv exStore [] "T1" "x"
        ⟨some "", some [("b", JsonValue.num 2)]⟩).store "x" "T1" = some m' :=
  C10_empty_content_update_skipped softEnv exStore [] "T1" "x"
    [("b", JsonValue.num 2)] exMsg1 rfl (by decide)

/-- C6: handleMessage never propagates an exception: the result is ok for
every record, parse function and environment; a record with an empty
value is dropped with no index operation, an unparseable payload is
dropped, an unknown event type is skipped, and an error thrown by the
index call is caught (no successful index operation remains). -/
theorem C6_consumer_never_throws (env : Env)
    (parse : String → Option MessageEvent) (record : KafkaRecord) :
    (handleMessage env parse record).result = .ok () ∧
    (record.value = none → (handleMessage env parse record).esOps = []) ∧
    (∀ v, record.value = some v → parse v = none →
      (handleMessage env parse record).esOps = []) ∧
    (∀ v ev, record.value = some v → parse v = some ev →
      ev.type ≠ "message.created" → ev.type ≠ "message.updated" →
      ev.type ≠ "message.deleted" →
      (handleMessage env parse record).esOps = []) ∧
    (env.esThrows = true → (handleMessage env parse record).esOps = []) := by
  refine ⟨?_, ?_, ?_, ?_, ?_⟩
  · simp only [handleMessage]
    split
    · rfl
    · split <;> rfl
  · intro hv
    simp [handleMessage, hv]
  · intro v hv hp
    simp [handleMessage, hv, hp]
  · intro v ev hv hp h1 h2 h3
    simp [handleMessage, hv, hp, h1, h2, h3]
  · intro hes
    simp only [handleMessage]
    split
    · rfl
    · split
      · rename_i ops hops
        cases hparse : parse (by assumption) <;> rw [hparse] at hops
        · exact absurd hops (by simp)
        · rw [hes] at hops
          repeat' split at hops
          all_goals simp_all
      · rfl

/-- Witness for C6: an empty-value record and an unparseable payload under
a throwing index are both dropped with an ok result and no index
operation. -/
theorem C6_witness :
    (handleMessage okEnv (fun _ => none) ⟨none, none, none⟩).result =
      .ok () ∧
    (handleMessage okEnv (fun _ => none) ⟨none, none, none⟩).esOps = [] ∧
    (handleMessage softEnv (fun _ => none)
      ⟨some "k", some "notjson", none⟩).esOps = [] := by
  have h1 := C6_consumer_never_throws okEnv (fun _ => none) ⟨none, none, none⟩
  have h2 := C6_consumer_never_throws softEnv (fun _ => none)
    ⟨some "k", some "notjson", none⟩
  exact ⟨h1.1, h1.2.1 rfl, h2.2.2.1 "notjson" rfl rfl⟩

/-- C2 counterexample: the store holds a T1 message and a T2 message with
the same id; findById for that id under T2 returns the T2 message, not
null, refuting the claim's "findById(id, T2) returns null ... even when
the id ... coincide" at this concrete input. -/
theorem C2_counterexample :
    exMsg1 ∈ exStore ∧ exMsg1.tenantId = "T1" ∧ ("T2" : String) ≠ "T1" ∧
    mongoFindById exStore exMsg1.id "T2" = some exMsg2 ∧
    mongoFindById exStore exMsg1.id "T2" ≠ none := by decide

/-- C2 amended: a message of tenant T1 is never retrievable under a
different tenant T2: findById under T2 never returns it (it returns null
whenever no T2 message carries that id — with coinciding ids it returns
T2's own message), findByConversationId under T2 never includes it, and
searchMessages under T2 never returns it. -/
theorem C2_tenant_isolation (st : Store) (index : List Message) (m : Message)
    (T2 : String) (hm : m.tenantId ≠ T2) :
    (∀ m', mongoFindById st m.id T2 = some m' →
      m'.tenantId = T2 ∧ m' ≠ m) ∧
    ((∀ d ∈ st, ¬(d.id = m.id ∧ d.tenantId = T2)) →
      mongoFindById st m.id T2 = none) ∧
    (∀ conversationId page limit sort,
      m ∉ (mongoFindByConversationId st conversationId T2 page limit
        sort).1) ∧
    (∀ conversationId term page limit mtch,
      m ∉ (esSearch index conversationId T2 term page limit mtch).1.data) := by
  refine ⟨?_, ?_, ?_, ?_⟩
  · intro m' h
    obtain ⟨-, ht⟩ := findById_matches st m.id T2 m' h
    refine ⟨ht, ?_⟩
    intro he
    rw [he] at ht
    exact hm ht
  · intro hall
    rw [mongoFindById, List.find?_eq_none]
    intro d hd
    simp only [matchesIdTenant, Bool.and_eq_true, beq_iff_eq]
    intro hcon
    exact hall d hd ⟨hcon.1, hcon.2⟩
  · intro c page limit sort hmem
    simp only [mongoFindByConversationId] at hmem
    have h1 := List.mem_of_mem_take hmem
    have h2 := List.mem_of_mem_drop h1
    have h3 := (mem_sortByLe _ _ _).1 h2
    have h4 := (List.mem_filter.1 h3).2
    simp only [Bool.and_eq_true, beq_iff_eq] at h4
    exact hm h4.2
  · intro c term page limit mtch hmem
    simp only [esSearch] at hmem
    have h1 := List.mem_of_mem_take hmem
    have h2 := List.mem_of_mem_drop h1
    have h3 := (mem_sortByLe _ _ _).1 h2
    have h4 := (List.mem_filter.1 h3).2
    simp only [Bool.and_eq_true, beq_iff_eq] at h4
    exact hm h4.1.2

/-- Witness for the amended C2 at the concrete two-tenant store: exMsg1 of
tenant T1 is never observable under T2 through any of the three reads. -/
theorem C2_witness :
    (∀ m', mongoFindById exStore exMsg1.id "T2" = some m' →
      m'.tenantId = "T2" ∧ m' ≠ exMsg1) ∧
    (∀ conversationId page limit sort,
      exMsg1 ∉ (mongoFindByConversationId exStore conversationId "T2" page
        limit sort).1) ∧
    (∀ conversationId term page limit mtch,
      exMsg1 ∉ (esSearch exStore conversationId "T2" term page limit
        mtch).1.data) := by
  have h := C2_tenant_isolation exStore exStore exMsg1 "T2" (by decide)
  exact ⟨h.1, h.2.2.1, h.2.2.2⟩

/-- C9: in getMessagesByConversation and searchMessages, a page below 1 is
independently replaced by 1 and a limit below 1 independently by 10
before any cache, store or index call: every issued repository query,
index query and cache key uses the coerced page (1 whenever page ≤ 0,
the given page otherwise) and the coerced limit (10 whenever limit ≤ 0,
the given limit otherwise), and no input is rejected with an error. -/
theorem C9_pagination_coercion (env : Env) (st : Store) (index : List Message)
    (cache : CacheState) (tenantId conversationId term : String)
    (page limit : Int) (sort : Option SortSpec)
    (mtch : String → String → Bool)
    (hrepo : env.repoThrows = false) (hes : env.esThrows = false) :
    (page ≤ 0 → (if page < 1 then (1 : Int) else page) = 1) ∧
    (limit ≤ 0 → (if limit < 1 then (10 : Int) else limit) = 10) ∧
    (∃ r, (getMessagesByConversation env st cache tenantId conversationId
      page limit sort).result = .ok r) ∧
    (∀ q ∈ (getMessagesByConversation env st cache tenantId conversationId
      page limit sort).repoCalls,
      q.page = (if page < 1 then 1 else page) ∧
      q.limit = (if limit < 1 then 10 else limit)) ∧
    (∀ op ∈ (getMessagesByConversation env st cache tenantId conversationId
      page limit sort).cacheOps,
      op.key = getConversationMessagesCacheKey conversationId tenantId
        (if page < 1 then 1 else page) (if limit < 1 then 10 else limit)
        (sort.map (fun s => s.field)) (sort.map (fun s => s.direction))) ∧
    (∃ r, (searchMessagesApp env index cache tenantId conversationId term
      page limit mtch).result = .ok r) ∧
    (∀ q ∈ (searchMessagesApp env index cache tenantId conversationId term
      page limit mtch).esCalls,
      q.page = (if page < 1 then 1 else page) ∧
      q.limit = (if limit < 1 then 10 else limit)) ∧
    (∀ op ∈ (searchMessagesApp env index cache tenantId conversationId term
      page limit mtch).cacheOps,
      op.key = getSearchCacheKey conversationId tenantId term
        (if page < 1 then 1 else page)
        (if limit < 1 then 10 else limit)) := by
  refine ⟨fun h => if_pos (by omega), fun h => if_pos (by omega),
    ?_, ?_, ?_, ?_, ?_, ?_⟩
  · simp only [getMessagesByConversation]
    split
    · exact ⟨_, rfl⟩
    · simp only [hrepo]
      exact ⟨_, rfl⟩
  · simp only [getMessagesByConversation]
    split
    · simp
    · simp [hrepo]
  · simp only [getMessagesByConversation]
    split
    · cases hcg : env.cacheGetThrows <;> simp [hcg, CacheOp.key]
    · simp only [hrepo]
      cases hcg : env.cacheGetThrows <;>
        cases hcs : env.cacheSetThrows <;>
          simp [hcg, hcs, CacheOp.key]
  · simp only [searchMessagesApp]
    split
    · exact ⟨_, rfl⟩
    · simp only [hes]
      exact ⟨_, rfl⟩
  · simp only [searchMessagesApp]
    split
    · simp
    · simp [hes]
  · simp only [searchMessagesApp]
    split
    · cases hcg : env.cacheGetThrows <;> simp [hcg, CacheOp.key]
    · simp only [hes]
      cases hcg : env.cacheGetThrows <;>
        cases hcs : env.cacheSetThrows <;>
          simp [hcg, hcs, CacheOp.key]

/-- Witness for C9 at the two one-sided inputs: page -1 with valid limit 5
(only the page is coerced) and valid page 2 with limit 0 (only the limit
is coerced), on the concrete store and index with a healthy
environment. -/
theorem C9_witness :
    (∃ r, (getMessagesByConversation okEnv exStore [] "T1" "c1"
      (-1) 5 none).result = .ok r) ∧
    (∀ q ∈ (getMessagesByConversation okEnv exStore [] "T1" "c1"
      (-1) 5 none).repoCalls, q.page = 1 ∧ q.limit = 5) ∧
    (∀ op ∈ (getMessagesByConversation okEnv exStore [] "T1" "c1"
      (-1) 5 none).cacheOps,
      op.key = getConversationMessagesCacheKey "c1" "T1" 1 5 none none) ∧
    (∃ r, (searchMessagesApp okEnv exStore [] "T1" "c1" "hello"
      2 0 (fun _ _ => true)).result = .ok r) ∧
    (∀ q ∈ (searchMessagesApp okEnv exStore [] "T1" "c1" "hello"
      2 0 (fun _ _ => true)).esCalls, q.page = 2 ∧ q.limit = 10) ∧
    (∀ op ∈ (searchMessagesApp okEnv exStore [] "T1" "c1" "hello"
      2 0 (fun _ _ => true)).cacheOps,
      op.key = getSearchCacheKey "c1" "T1" "hello" 2 10) := by
  have ha := C9_pagination_coercion okEnv exStore exStore [] "T1" "c1" "hello"
    (-1) 5 none (fun _ _ => true) rfl rfl
  have hb := C9_pagination_coercion okEnv exStore exStore [] "T1" "c1" "hello"
    2 0 none (fun _ _ => true) rfl rfl
  refine ⟨ha.2.2.1, ?_, ?_, hb.2.2.2.2.2.1, ?_, ?_⟩
  · intro q hq
    have := ha.2.2.2.1 q hq
    simpa using this
  · intro op hop
    have := ha.2.2.2.2.1 op hop
    simpa using this
  · intro q hq
    have := hb.2.2.2.2.2.2.1 q hq
    simpa using this
  · intro op hop
    have := hb.2.2.2.2.2.2.2 op hop
    simpa using this

theorem natCeilDiv_eq_ceil (t l : Nat) (hl : 1 ≤ l) :
    ((t + l - 1) / l : Nat) = ⌈(t : ℚ) / (l : ℚ)⌉₊ := by
  have hl0 : (0 : ℚ) < l := by exact_mod_cast hl
  apply le_antisymm
  · have h1 : (t : ℚ) / l ≤ (⌈(t : ℚ) / l⌉₊ : ℚ) := Nat.le_ceil _
    rw [div_le_iff₀ hl0] at h1
    have h3 : t ≤ ⌈(t : ℚ) / l⌉₊ * l := by exact_mod_cast h1
    have h5 : t + l - 1 < (⌈(t : ℚ) / l⌉₊ + 1) * l := by
      rw [Nat.succ_mul]
      omega
    exact Nat.lt_succ_iff.mp ((Nat.div_lt_iff_lt_mul (by omega)).mpr h5)
  · rw [Nat.ceil_le, div_le_iff₀ hl0]
    have key : t ≤ ((t + l - 1) / l) * l := by
      have hdm := Nat.div_add_mod (t + l - 1) l
      have hmod : (t + l - 1) % l < l := Nat.mod_lt _ (by omega)
      rw [Nat.mul_comm l ((t + l - 1) / l)] at hdm
      omega
    exact_mod_cast key

/-- C8: for every search with page and limit at least 1, the offset sent to
the engine equals (page-1)*limit and the returned envelope has totalPages
equal to the ceiling of totalItems/limit; hence totalItems 42 with limit
10 gives totalPages 5 and totalItems 0 gives totalPages 0. -/
theorem C8_pagination_math :
    (∀ (index : List Message) (conversationId tenantId term : String)
      (page limit : Int) (mtch : String → String → Bool),
      1 ≤ page → 1 ≤ limit →
      (esSearch index conversationId tenantId term page limit
        mtch).2.fromOffset = (page - 1) * limit ∧
      (esSearch index conversationId tenantId term page limit
        mtch).1.pagination.totalPages =
        ⌈((esSearch index conversationId tenantId term page limit
          mtch).1.pagination.totalItems : ℚ) / ((limit : ℚ))⌉₊) ∧
    ((esSearch (List.replicate 42 exMsg1) "c1" "T1" "q" 1 10
      (fun _ _ => true)).1.pagination.totalItems = 42 ∧
     (esSearch (List.replicate 42 exMsg1) "c1" "T1" "q" 1 10
      (fun _ _ => true)).1.pagination.totalPages = 5) ∧
    ((esSearch [] "c1" "T1" "q" 1 10
      (fun _ _ => true)).1.pagination.totalItems = 0 ∧
     (esSearch [] "c1" "T1" "q" 1 10
      (fun _ _ => true)).1.pagination.totalPages = 0) := by
  refine ⟨?_, by decide, by decide⟩
  intro index c t term page limit mtch hp hl
  refine ⟨rfl, ?_⟩
  have hlt : (1 : Nat) ≤ limit.toNat := by omega
  have hcast : ((limit.toNat : Nat) : ℚ) = (limit : ℚ) := by
    have h0 : (0 : Int) ≤ limit := by omega
    have := Int.toNat_of_nonneg h0
    exact_mod_cast congrArg (fun z : Int => (z : ℚ)) this
  have h := natCeilDiv_eq_ceil (esSearch index c t term page limit
    mtch).1.pagination.totalItems limit.toNat hlt
  rw [hcast] at h
  exact h

/-- Witness for C8 at page 1, limit 10 on an index of 42 matching
documents. -/
theorem C8_witness :
    (esSearch (List.replicate 42 exMsg1) "c1" "T1" "q" 1 10
      (fun _ _ => true)).2.fromOffset = (1 - 1) * 10 ∧
    (esSearch (List.replicate 42 exMsg1) "c1" "T1" "q" 1 10
      (fun _ _ => true)).1.pagination.totalPages =
      ⌈((esSearch (List.replicate 42 exMsg1) "c1" "T1" "q" 1 10
        (fun _ _ => true)).1.pagination.totalItems : ℚ) / (((10 : Int) : ℚ))⌉₊ :=
  C8_pagination_math.1 (List.replicate 42 exMsg1) "c1" "T1" "q" 1 10
    (fun _ _ => true) (by decide) (by decide)

/-! Decimal-representation lemmas used to separate cache keys. -/

theorem toDigitsCore_succ (f n : Nat) (acc : List Char) :
    Nat.toDigitsCore 10 (f + 1) n acc =
      if n / 10 = 0 then Nat.digitChar (n % 10) :: acc
      else Nat.toDigitsCore 10 f (n / 10) (Nat.digitChar (n % 10) :: acc) := by
  simp [Nat.toDigitsCore]

theorem digitChar_isDigit : ∀ m : Nat, m < 10 →
    (Nat.digitChar m).isDigit = true := by decide

theorem toDigitsCore_digits : ∀ (fuel n : Nat) (acc : List Char),
    (∀ c ∈ acc, c.isDigit = true) →
    ∀ c ∈ Nat.toDigitsCore 10 fuel n acc, c.isDigit = true := by
  intro fuel
  induction fuel with
  | zero => intro n acc hacc c hc; exact hacc c hc
  | succ f ih =>
    intro n acc hacc c hc
    rw [toDigitsCore_succ] at hc
    by_cases h : n / 10 = 0
    · rw [if_pos h] at hc
      rcases List.mem_cons.mp hc with h1 | h1
      · subst h1
        exact digitChar_isDigit _ (Nat.mod_lt _ (by omega))
      · exact hacc _ h1
    · rw [if_neg h] at hc
      refine ih _ _ ?_ _ hc
      intro c2 hc2
      rcases List.mem_cons.mp hc2 with h1 | h1
      · subst h1
        exact digitChar_isDigit _ (Nat.mod_lt _ (by omega))
      · exact hacc _ h1

theorem natRepr_colonFree (n : Nat) : ':' ∉ (Nat.repr n).data := by
  intro hmem
  have hmem2 : ':' ∈ Nat.toDigitsCore 10 (n + 1) n [] := hmem
  have h := toDigitsCore_digits (n + 1) n [] (by simp) ':' hmem2
  exact absurd h (by decide)

theorem toDigitsCore_length_ge : ∀ (fuel n : Nat) (acc : List Char),
    acc.length ≤ (Nat.toDigitsCore 10 fuel n acc).length := by
  intro fuel
  induction fuel with
  | zero => intro n acc; exact le_rfl
  | succ f ih =>
    intro n acc
    rw [toDigitsCore_succ]
    by_cases h : n / 10 = 0
    · rw [if_pos h]
      simp
    · rw [if_neg h]
      calc acc.length ≤ (Nat.digitChar (n % 10) :: acc).length := by simp
        _ ≤ _ := ih _ _

theorem toDigitsCore_length_ge_one (f n : Nat) (acc : List Char) :
    acc.length + 1 ≤ (Nat.toDigitsCore 10 (f + 1) n acc).length := by
  rw [toDigitsCore_succ]
  by_cases h : n / 10 = 0
  · rw [if_pos h]
    simp
  · rw [if_neg h]
    have h2 := toDigitsCore_length_ge f (n / 10) (Nat.digitChar (n % 10) :: acc)
    simp only [List.length_cons] at h2
    omega

theorem toDigitsCore_length_ge_two (f n : Nat) (acc : List Char)
    (hn : n / 10 ≠ 0) :
    acc.length + 2 ≤ (Nat.toDigitsCore 10 (f + 2) n acc).length := by
  rw [toDigitsCore_succ, if_neg hn]
  have h2 := toDigitsCore_length_ge_one f (n / 10) (Nat.digitChar (n % 10) :: acc)
  simp only [List.length_cons] at h2
  omega

theorem toDigitsCore_length_ge_three (f n : Nat) (acc : List Char)
    (hn : n / 10 ≠ 0) (hn2 : n / 10 / 10 ≠ 0) :
    acc.length + 3 ≤ (Nat.toDigitsCore 10 (f + 3) n acc).length := by
  rw [toDigitsCore_succ, if_neg hn]
  have h2 := toDigitsCore_length_ge_two f (n / 10)
    (Nat.digitChar (n % 10) :: acc) hn2
  simp only [List.length_cons] at h2
  omega

theorem toDigitsCore_of_lt_ten (f n : Nat) (acc : List Char) (h : n < 10) :
    Nat.toDigitsCore 10 (f + 1) n acc = Nat.digitChar n :: acc := by
  rw [toDigitsCore_succ, if_pos (Nat.div_eq_of_lt h), Nat.mod_eq_of_lt h]

theorem natRepr_of_lt_ten (n : Nat) (h : n < 10) :
    Nat.repr n = List.asString [Nat.digitChar n] := by
  show (Nat.toDigitsCore 10 (n + 1) n []).asString = _
  rw [toDigitsCore_of_lt_ten _ _ _ h]

theorem natRepr_two_digit (n : Nat) (h1 : 10 ≤ n) (h2 : n < 100) :
    Nat.repr n =
      List.asString [Nat.digitChar (n / 10), Nat.digitChar (n % 10)] := by
  show (Nat.toDigitsCore 10 (n + 1) n []).asString = _
  obtain ⟨g, rfl⟩ : ∃ g, n = g + 1 := ⟨n - 1, by omega⟩
  have hne : (g + 1) / 10 ≠ 0 := by
    have := (Nat.le_div_iff_mul_le (by omega : 0 < 10)).mpr
      (by omega : 1 * 10 ≤ g + 1)
    omega
  rw [toDigitsCore_succ, if_neg hne]
  have hlt : (g + 1) / 10 < 10 := by
    have := (Nat.div_lt_iff_lt_mul (by omega : 0 < 10)).mpr
      (by omega : g + 1 < 10 * 10)
    omega
  rw [toDigitsCore_of_lt_ten g ((g + 1) / 10) _ hlt]

theorem natRepr_data_len_two (n : Nat) (h1 : 10 ≤ n) (h2 : n < 100) :
    (Nat.repr n).data =
      [Nat.digitChar (n / 10), Nat.digitChar (n % 10)] := by
  rw [natRepr_two_digit n h1 h2]
  rfl

theorem natRepr_eq_one (n : Nat) (h : Nat.repr n = "1") : n = 1 := by
  by_cases h10 : n < 10
  · have h2 := natRepr_of_lt_ten n h10
    rw [h] at h2
    have hd : ('1' : Char) :: [] = [Nat.digitChar n] :=
      congrArg String.data h2
    have hc : Nat.digitChar n = '1' := by
      injection hd with ha hb
      exact ha.symm
    have hkey : ∀ m : Nat, m < 10 → Nat.digitChar m = '1' → m = 1 := by decide
    exact hkey n h10 hc
  · exfalso
    have hlen : (Nat.repr n).data.length = 1 := by
      rw [h]
      rfl
    have hge : 2 ≤ (Nat.repr n).data.length := by
      show 2 ≤ (Nat.toDigitsCore 10 (n + 1) n []).length
      obtain ⟨g, rfl⟩ : ∃ g, n = g + 2 := ⟨n - 2, by omega⟩
      have hne : (g + 2) / 10 ≠ 0 := by
        have := (Nat.le_div_iff_mul_le (by omega : 0 < 10)).mpr
          (by omega : 1 * 10 ≤ g + 2)
        omega
      have := toDigitsCore_length_ge_two (g + 1) (g + 2) [] hne
      simpa using this
    omega

theorem natRepr_eq_ten (n : Nat) (h : Nat.repr n = "10") : n = 10 := by
  have hlen : (Nat.repr n).data.length = 2 := by
    rw [h]
    rfl
  by_cases h10 : n < 10
  · exfalso
    have h2 := natRepr_of_lt_ten n h10
    rw [h2] at hlen
    exact absurd hlen (by simp [List.asString])
  · by_cases h100 : n < 100
    · have h2 := natRepr_data_len_two n (by omega) h100
      rw [h] at h2
      have hd : ('1' : Char) :: '0' :: [] =
          [Nat.digitChar (n / 10), Nat.digitChar (n % 10)] := h2
      have hc1 : Nat.digitChar (n / 10) = '1' := by
        injection hd with ha hb
        exact ha.symm
      have hc0 : Nat.digitChar (n % 10) = '0' := by
        injection hd with ha hb
        injection hb with hb1 hb2
        exact hb1.symm
      have hkey1 : ∀ m : Nat, m < 10 → Nat.digitChar m = '1' → m = 1 := by
        decide
      have hkey0 : ∀ m : Nat, m < 10 → Nat.digitChar m = '0' → m = 0 := by
        decide
      have hdiv : n / 10 = 1 := by
        refine hkey1 _ ?_ hc1
        have := (Nat.div_lt_iff_lt_mul (by omega : 0 < 10)).mpr
          (by omega : n < 10 * 10)
        omega
      have hmod : n % 10 = 0 := hkey0 _ (Nat.mod_lt _ (by omega)) hc0
      have := Nat.div_add_mod n 10
      omega
    · exfalso
      have hge : 3 ≤ (Nat.repr n).data.length := by
        show 3 ≤ (Nat.toDigitsCore 10 (n + 1) n []).length
        obtain ⟨g, rfl⟩ : ∃ g, n = g + 3 := ⟨n - 3, by omega⟩
        have hne : (g + 3) / 10 ≠ 0 := by
          have := (Nat.le_div_iff_mul_le (by omega : 0 < 10)).mpr
            (by omega : 1 * 10 ≤ g + 3)
          omega
        have hne2 : (g + 3) / 10 / 10 ≠ 0 := by
          have hten : 10 ≤ (g + 3) / 10 := (Nat.le_div_iff_mul_le
            (by omega : 0 < 10)).mpr (by omega : 10 * 10 ≤ g + 3)
          have := (Nat.le_div_iff_mul_le (by omega : 0 < 10)).mpr
            (by omega : 1 * 10 ≤ (g + 3) / 10)
          omega
        have := toDigitsCore_length_ge_three (g + 1) (g + 3) [] hne hne2
        simpa using this
      omega

theorem append_sep_inj : ∀ (a a2 b b2 : List Char), ':' ∉ a → ':' ∉ a2 →
    a ++ ':' :: b = a2 ++ ':' :: b2 → a = a2 ∧ b = b2 := by
  intro a
  induction a with
  | nil =>
    intro a2 b b2 ha ha2 h
    cases a2 with
    | nil => simpa using h
    | cons x xs =>
      exfalso
      simp only [List.nil_append, List.cons_append, List.cons.injEq] at h
      exact ha2 (h.1 ▸ List.mem_cons_self x xs)
  | cons y ys ih =>
    intro a2 b b2 ha ha2 h
    cases a2 with
    | nil =>
      exfalso
      simp only [List.nil_append, List.cons_append, List.cons.injEq] at h
      exact ha (h.1.symm ▸ List.mem_cons_self y ys)
    | cons x xs =>
      simp only [List.cons_append, List.cons.injEq] at h
      obtain ⟨rfl, h2⟩ := h
      have hys : ':' ∉ ys := fun hm => ha (List.mem_cons_of_mem _ hm)
      have hxs : ':' ∉ xs := fun hm => ha2 (List.mem_cons_of_mem _ hm)
      obtain ⟨he1, he2⟩ := ih xs b b2 hys hxs h2
      exact ⟨by rw [he1], he2⟩

theorem intToString_pos (p : Int) (hp : 1 ≤ p) :
    toString p = Nat.repr p.toNat := by
  obtain ⟨m, rfl⟩ : ∃ m : Nat, p = Int.ofNat m :=
    ⟨p.toNat, (Int.toNat_of_nonneg (by omega)).symm⟩
  rfl

theorem intToString_colonFree (p : Int) (hp : 1 ≤ p) :
    ':' ∉ (toString p).data := by
  rw [intToString_pos p hp]
  exact natRepr_colonFree _

theorem intToString_eq_one (p : Int) (hp : 1 ≤ p) (h : toString p = "1") :
    p = 1 := by
  rw [intToString_pos p hp] at h
  have := natRepr_eq_one _ h
  omega

theorem intToString_eq_ten (p : Int) (hp : 1 ≤ p) (h : toString p = "10") :
    p = 10 := by
  rw [intToString_pos p hp] at h
  have := natRepr_eq_ten _ h
  omega

theorem dirString_colonFree (d : Option SortDirection) :
    ':' ∉ (dirString d).data := by
  rcases d with - | dd
  · decide
  · cases dd <;> decide

theorem convKey_parts (c t : String) (p l p2 l2 : Int) (f f2 : Option String)
    (d d2 : Option SortDirection)
    (hp : ':' ∉ (toString p).data) (hp2 : ':' ∉ (toString p2).data)
    (hl : ':' ∉ (toString l).data) (hl2 : ':' ∉ (toString l2).data)
    (h : getConversationMessagesCacheKey c t p l f d =
      getConversationMessagesCacheKey c t p2 l2 f2 d2) :
    toString p = toString p2 ∧ toString l = toString l2 ∧
    jsStringOr f "timestamp" = jsStringOr f2 "timestamp" ∧
    dirString d = dirString d2 := by
  have hd := congrArg String.data h
  simp only [getConversationMessagesCacheKey, string_data_append,
    List.append_assoc, show (":" : String).data = [':'] from rfl,
    List.singleton_append] at hd
  have hd1 := List.append_cancel_left hd
  have hd2 := List.append_cancel_left hd1
  injection hd2 with hx hd3
  have hd4 := List.append_cancel_left hd3
  injection hd4 with hx2 hd5
  obtain ⟨he1, hd6⟩ := append_sep_inj _ _ _ _ hp hp2 hd5
  obtain ⟨he2, hd7⟩ := append_sep_inj _ _ _ _ hl hl2 hd6
  have hrev := congrArg List.reverse hd7
  simp only [List.append_eq, List.reverse_append, List.reverse_cons,
    List.append_assoc, List.singleton_append] at hrev
  obtain ⟨he4, he3⟩ := append_sep_inj _ _ _ _
    (fun hm => dirString_colonFree d (List.mem_reverse.mp hm))
    (fun hm => dirString_colonFree d2 (List.mem_reverse.mp hm)) hrev
  exact ⟨String.ext_iff.mpr he1, String.ext_iff.mpr he2,
    String.ext_iff.mpr (List.reverse_inj.mp he3),
    String.ext_iff.mpr (List.reverse_inj.mp he4)⟩

theorem convKey_ne_default (c t : String) (p l : Int) (f : Option String)
    (d : Option SortDirection) (hp : 1 ≤ p) (hl : 1 ≤ l)
    (hdiff : ¬(p = 1 ∧ l = 10 ∧ jsStringOr f "timestamp" = "timestamp" ∧
      dirString d = "desc")) :
    getConversationMessagesCacheKey c t p l f d ≠
      getConversationMessagesCacheKey c t 1 10 none none := by
  intro h
  obtain ⟨he1, he2, he3, he4⟩ := convKey_parts c t p l 1 10 f none d none
    (intToString_colonFree p hp) (by decide)
    (intToString_colonFree l hl) (by decide) h
  exact hdiff ⟨intToString_eq_one p hp (he1.trans rfl),
    intToString_eq_ten l hl (he2.trans rfl), he3.trans rfl, he4.trans rfl⟩

theorem convKey_ne_messageKey (c t : String) (p l : Int) (f : Option String)
    (d : Option SortDirection) (id t2 : String) :
    getConversationMessagesCacheKey c t p l f d ≠
      getMessageCacheKey id t2 := by
  intro h
  have h1 : (getConversationMessagesCacheKey c t p l f d).data.head? =
      some 'c' := rfl
  rw [h] at h1
  have h2 : (getMessageCacheKey id t2).data.head? = some 'm' := rfl
  rw [h1] at h2
  exact absurd h2 (by simp)

/-- C3: on every mutation the only cache keys deleted are the
single-message key of the affected id and the default (page 1, limit 10,
timestamp descending) conversation-page key of the affected conversation
(createMessage deletes only the latter); a conversation-page key of the
same conversation for any other page, limit or sort combination (page
and limit at least 1, as cached pages always are after coercion) is
never deleted by any of the three mutations. -/
theorem C3_targeted_invalidation (env : Env) (st : Store) (cache : CacheState)
    (tenantId id newId : String) (now : Nat) (cdto : CreateMessageDto)
    (udto : UpdateMessageDto) (m0 : Message)
    (hfind : mongoFindById st id tenantId = some m0) :
    (∀ k, CacheOp.del k ∈ (createMessage env st cache tenantId cdto newId
        now).cacheOps →
      k = getConversationMessagesCacheKey cdto.conversationId tenantId 1 10
        none none) ∧
    (∀ k, CacheOp.del k ∈ (updateMessage env st cache tenantId id
        udto).cacheOps →
      k = getMessageCacheKey id tenantId ∨
      k = getConversationMessagesCacheKey m0.conversationId tenantId 1 10
        none none) ∧
    (∀ k, CacheOp.del k ∈ (deleteMessage env st cache tenantId
        id).cacheOps →
      k = getMessageCacheKey id tenantId ∨
      k = getConversationMessagesCacheKey m0.conversationId tenantId 1 10
        none none) ∧
    (∀ (p l : Int) (f : Option String) (d : Option SortDirection),
      1 ≤ p → 1 ≤ l →
      ¬(p = 1 ∧ l = 10 ∧ jsStringOr f "timestamp" = "timestamp" ∧
        dirString d = "desc") →
      CacheOp.del (getConversationMessagesCacheKey cdto.conversationId
          tenantId p l f d) ∉
        (createMessage env st cache tenantId cdto newId now).cacheOps ∧
      CacheOp.del (getConversationMessagesCacheKey m0.conversationId
          tenantId p l f d) ∉
        (updateMessage env st cache tenantId id udto).cacheOps ∧
      CacheOp.del (getConversationMessagesCacheKey m0.conversationId
          tenantId p l f d) ∉
        (deleteMessage env st cache tenantId id).cacheOps) := by
  obtain ⟨re, cg, cs, cd, kf, es⟩ := env
  have hconv := (applyMessageUpdate_fields m0 udto).2.1
  have hA : ∀ k, CacheOp.del k ∈ (createMessage ⟨re, cg, cs, cd, kf, es⟩ st
      cache tenantId cdto newId now).cacheOps →
      k = getConversationMessagesCacheKey cdto.conversationId tenantId 1 10
        none none := by
    intro k hk
    cases re <;> cases cs <;> cases cd <;> simp_all [createMessage, Message.create]
  have hB : ∀ k, CacheOp.del k ∈ (updateMessage ⟨re, cg, cs, cd, kf, es⟩ st
      cache tenantId id udto).cacheOps →
      k = getMessageCacheKey id tenantId ∨
      k = getConversationMessagesCacheKey m0.conversationId tenantId 1 10
        none none := by
    intro k hk
    cases re <;> cases cs <;> cases cd <;>
      simp_all [updateMessage, hfind, hconv]
  have hC : ∀ k, CacheOp.del k ∈ (deleteMessage ⟨re, cg, cs, cd, kf, es⟩ st
      cache tenantId id).cacheOps →
      k = getMessageCacheKey id tenantId ∨
      k = getConversationMessagesCacheKey m0.conversationId tenantId 1 10
        none none := by
    intro k hk
    cases re <;> cases cs <;> cases cd <;>
      simp_all [deleteMessage, hfind]
  refine ⟨hA, hB, hC, ?_⟩
  intro p l f d hp hl hdiff
  refine ⟨?_, ?_, ?_⟩
  · intro hmem
    exact convKey_ne_default cdto.conversationId tenantId p l f d hp hl
      hdiff (hA _ hmem)
  · intro hmem
    rcases hB _ hmem with hk | hk
    · exact convKey_ne_messageKey m0.conversationId tenantId p l f d id
        tenantId hk
    · exact convKey_ne_default m0.conversationId tenantId p l f d hp hl
        hdiff hk
  · intro hmem
    rcases hC _ hmem with hk | hk
    · exact convKey_ne_messageKey m0.conversationId tenantId p l f d id
        tenantId hk
    · exact convKey_ne_default m0.conversationId tenantId p l f d hp hl
        hdiff hk

/-- Witness for C3 at the concrete store with a healthy environment: the
create deletes only the default conversation key, and the page 2
combination key is deleted by none of the three mutations. -/
theorem C3_witness :
    (∀ k, CacheOp.del k ∈ (createMessage okEnv exStore [] "T1" exCreateDto
        "n1" 7).cacheOps →
      k = getConversationMessagesCacheKey "c1" "T1" 1 10 none none) ∧
    CacheOp.del (getConversationMessagesCacheKey "c1" "T1" 2 10 none none) ∉
      (createMessage okEnv exStore [] "T1" exCreateDto "n1" 7).cacheOps ∧
    CacheOp.del (getConversationMessagesCacheKey "c1" "T1" 2 10 none none) ∉
      (updateMessage okEnv exStore [] "T1" "x" exUpdateDto).cacheOps ∧
    CacheOp.del (getConversationMessagesCacheKey "c1" "T1" 2 10 none none) ∉
      (deleteMessage okEnv exStore [] "T1" "x").cacheOps := by
  have h := C3_targeted_invalidation okEnv exStore [] "T1" "x" "n1" 7
    exCreateDto exUpdateDto exMsg1 (by decide)
  have h4 := h.2.2.2 2 10 none none (by decide) (by decide) (by decide)
  exact ⟨h.1, h4.1, h4.2.1, h4.2.2⟩

end MsgSys
